import Mathlib

/-!
# Verification of the AudioVisualizerDemo repository

Shallow embedding of the audio-visualizer demo (JavaScript) in Lean 4.
Machine numbers are modelled by `ℚ`; JavaScript `Uint8Array` frequency
snapshots are modelled by `List ℕ` (each entry `≤ 255`); a possibly
missing (`null`) snapshot is `Option (List ℕ)`.  Transcendental values
produced by `Math.sin` / `Math.cos` are passed to the embedded functions
as explicit arguments, since the surrounding arithmetic never inspects
them.
-/

/-- Mode of the fractal visualizer (`this.mode` in
`visualizers/fractal-visualizer.js`): one of the strings
`mandelbrot`, `julia`, `fourier` or `hybrid`. -/
inductive VisMode
  | mandelbrot
  | julia
  | fourier
  | hybrid
deriving DecidableEq, Repr, Fintype

/-- The list `const modes` of the four mode strings
from `FractalVisualizer.cycleModes`. -/
def modesList : List VisMode := [.mandelbrot, .julia, .fourier, .hybrid]

/-- Embedding of `FractalVisualizer.cycleModes` (fractal-visualizer.js lines 92–97):
`this.mode = modes[(modes.indexOf(this.mode) + 1) % modes.length]`. -/
def cycleModes (m : VisMode) : VisMode :=
  let currentIndex := modesList.indexOf m
  modesList.getD ((currentIndex + 1) % modesList.length) m

/-- One tick of the `setInterval` callback installed in the
`FractalVisualizer` constructor (lines 48–52): the mode advances only
when `this.isActive` holds. -/
def modeTimerTick (isActive : Bool) (m : VisMode) : VisMode :=
  if isActive then cycleModes m else m

/-- State of `BaseVisualizer` relevant to the audio-feature helpers:
`this.frequencyData` (a `Uint8Array`, or `null` before `initAudio`) and
`this.sensitivity`. -/
structure BaseVisualizer where
  frequencyData : Option (List ℕ)
  sensitivity : ℚ

/-- Embedding of `BaseVisualizer.getAverageFrequency` (base-visualizer.js lines
134–139): `0` when `this.frequencyData` is null, otherwise
`(frequencyData.reduce((a,b) => a+b, 0) / frequencyData.length) / 128.0`. -/
def BaseVisualizer.getAverageFrequency (v : BaseVisualizer) : ℚ :=
  match v.frequencyData with
  | none => 0
  | some l => ((l.sum : ℚ) / (l.length : ℚ)) / 128

/-- The `for` loop of `BaseVisualizer.getDominantFrequency`
(base-visualizer.js lines 147–155): scan the remaining bins, carrying the
index `i` of the next bin and the running `maxValue` / `maxIndex`; a bin
replaces the running maximum only when strictly greater. -/
def domLoop : List ℕ → ℕ → ℕ → ℕ → ℕ × ℕ
  | [], _, maxValue, maxIndex => (maxValue, maxIndex)
  | b :: rest, i, maxValue, maxIndex =>
    if maxValue < b then domLoop rest (i + 1) b i
    else domLoop rest (i + 1) maxValue maxIndex

/-- Embedding of `BaseVisualizer.getDominantFrequency` (base-visualizer.js lines
144–158): `0` when `this.frequencyData` is null, otherwise
`maxIndex / frequencyData.length` where `maxIndex` starts at `0`,
`maxValue` starts at `0`, and the loop updates them on strict increase. -/
def BaseVisualizer.getDominantFrequency (v : BaseVisualizer) : ℚ :=
  match v.frequencyData with
  | none => 0
  | some l => (((domLoop l 0 0 0).2 : ℚ) / (l.length : ℚ))

/-- Embedding of `BaseVisualizer.setSensitivity` (base-visualizer.js lines 175–177):
`this.sensitivity = Math.max(10, Math.min(200, value))`. -/
def setSensitivity (value : ℚ) : ℚ := max 10 (min 200 value)

/-- The value of `this.sensitivity` after a sequence of
`setSensitivity` calls, starting from the initial value the constructor sets,
`50` (base-visualizer.js line 15).  `setSensitivity` is the only write
to the field in the repository (the `updateSensitivity` method of the controller
goes through it). -/
def sensitivityAfter (updates : List ℚ) : ℚ :=
  updates.foldl (fun _ value => setSensitivity value) 50

/-- Squared modulus `zx*zx + zy*zy` used in the escape tests of
`mandelbrot` and `julia`. -/
def normSq (z : ℚ × ℚ) : ℚ := z.1 * z.1 + z.2 * z.2

/-- One iteration of the fractal loop body (fractal-visualizer.js lines
114–116 and 140–142): `(zx, zy) ← (zx*zx - zy*zy + cx, 2*zx*zy + cy)`. -/
def fractalStep (cx cy : ℚ) (z : ℚ × ℚ) : ℚ × ℚ :=
  (z.1 * z.1 - z.2 * z.2 + cx, 2 * z.1 * z.2 + cy)

/-- The orbit of the fractal iteration: `orbit cx cy z k` is the value of
`(zx, zy)` after `k` executions of the loop body starting from `z`. -/
def orbit (cx cy : ℚ) (z : ℚ × ℚ) : ℕ → ℚ × ℚ
  | 0 => z
  | k + 1 => orbit cx cy (fractalStep cx cy z) k

/-- The shared `while` loop of `mandelbrot` and `julia`
(fractal-visualizer.js lines 112–118 and 138–144):
`while (zx*zx + zy*zy < 4 && iterations < maxIterations)` run the body
and count; `fuel` is `maxIterations - iterations`. -/
def escapeCount (cx cy : ℚ) (z : ℚ × ℚ) : ℕ → ℕ
  | 0 => 0
  | fuel + 1 =>
    if normSq z < 4 then escapeCount cx cy (fractalStep cx cy z) fuel + 1
    else 0

/-- Predicate stating that `n` is the escape-time value of the textbook iteration with
parameter `c = (cx, cy)` started at `z`, capped at `maxIter`: `n` is at
most the cap, every earlier iterate is still inside the circle of radius
2, and if the cap was not hit then the `n`-th iterate has escaped. -/
def isEscapeTime (cx cy : ℚ) (z : ℚ × ℚ) (maxIter n : ℕ) : Prop :=
  n ≤ maxIter ∧ (∀ j < n, normSq (orbit cx cy z j) < 4) ∧
    (n < maxIter → 4 ≤ normSq (orbit cx cy z n))

/-- State of `FractalVisualizer` relevant to its per-pixel mathematics;
extends the base-class state with the fields read by `mandelbrot`,
`julia` and `fourierPoint`. -/
structure FractalVisualizer extends BaseVisualizer where
  centerX : ℚ
  centerY : ℚ
  canvasWidth : ℚ
  canvasHeight : ℚ
  maxIterations : ℕ
  zoom : ℚ
  panX : ℚ
  panY : ℚ
  fourierRadius : ℚ
  fourierSpeed : ℚ
  time : ℚ
  complexParamRe : ℚ
  complexParamIm : ℚ

/-- Value of `this.getAverageFrequency() * this.sensitivity / 100`, the
`audioInfluence` expression computed at the top of `mandelbrot`,
`julia`, `drawFourier` and the other fractal methods. -/
def FractalVisualizer.audioInfluence (v : FractalVisualizer) : ℚ :=
  v.toBaseVisualizer.getAverageFrequency * v.toBaseVisualizer.sensitivity / 100

/-- The starting point `(zx, zy)` computed by
`FractalVisualizer.mandelbrot` (fractal-visualizer.js lines 103–107)
from a pixel `(x, y)`:
`zoomFactor = zoom * (1 + audioInfluence * 0.5)`,
`zx = (x - centerX) / (canvasWidth * zoomFactor) + panX`,
`zy = (y - centerY) / (canvasHeight * zoomFactor) + panY`. -/
def FractalVisualizer.mandelbrotSeed (v : FractalVisualizer) (x y : ℚ) : ℚ × ℚ :=
  let audioInfluence := v.audioInfluence
  let zoomFactor := v.zoom * (1 + audioInfluence * (5 / 10))
  ((x - v.centerX) / (v.canvasWidth * zoomFactor) + v.panX,
   (y - v.centerY) / (v.canvasHeight * zoomFactor) + v.panY)

/-- Embedding of `FractalVisualizer.mandelbrot` (fractal-visualizer.js lines
102–121): run the escape loop from the mapped point, with
`c = (cx, cy)` equal to that same mapped point, for at most
`this.maxIterations` iterations. -/
def FractalVisualizer.mandelbrot (v : FractalVisualizer) (x y : ℚ) : ℕ :=
  let z := v.mandelbrotSeed x y
  escapeCount z.1 z.2 z v.maxIterations

/-- The audio-reactive Julia parameter `(c_re, c_im)` of
`FractalVisualizer.julia` (fractal-visualizer.js lines 131–132).
`sinT` and `cosT` stand for the values `Math.sin(this.time * 0.01)` and
`Math.cos(this.time * 0.01)`, which the arithmetic never inspects. -/
def FractalVisualizer.juliaC (v : FractalVisualizer) (sinT cosT : ℚ) : ℚ × ℚ :=
  (v.complexParamRe + sinT * (1 / 10) * v.audioInfluence,
   v.complexParamIm + cosT * (1 / 10) * v.audioInfluence)

/-- The starting point `(zx, zy)` computed by `FractalVisualizer.julia`
(fractal-visualizer.js lines 134–136):
`zoomFactor = zoom * (1 + audioInfluence * 0.3)`,
`zx = (x - centerX) / (canvasWidth * zoomFactor)`,
`zy = (y - centerY) / (canvasHeight * zoomFactor)`. -/
def FractalVisualizer.juliaSeed (v : FractalVisualizer) (x y : ℚ) : ℚ × ℚ :=
  let audioInfluence := v.audioInfluence
  let zoomFactor := v.zoom * (1 + audioInfluence * (3 / 10))
  ((x - v.centerX) / (v.canvasWidth * zoomFactor),
   (y - v.centerY) / (v.canvasHeight * zoomFactor))

/-- Embedding of `FractalVisualizer.julia` (fractal-visualizer.js lines 126–147):
run the escape loop from the mapped point with the audio-reactive
parameter `c`, for at most `this.maxIterations` iterations. -/
def FractalVisualizer.julia (v : FractalVisualizer) (x y sinT cosT : ℚ) : ℕ :=
  let c := v.juliaC sinT cosT
  let z := v.juliaSeed x y
  escapeCount c.1 c.2 z v.maxIterations

lemma orbit_succ (cx cy : ℚ) (z : ℚ × ℚ) (k : ℕ) :
    orbit cx cy z (k + 1) = orbit cx cy (fractalStep cx cy z) k := rfl

/-- The escape loop computes an escape time in the sense of
`isEscapeTime`, for every fuel value and starting point. -/
lemma escapeCount_isEscapeTime (cx cy : ℚ) :
    ∀ (fuel : ℕ) (z : ℚ × ℚ), isEscapeTime cx cy z fuel (escapeCount cx cy z fuel) := by
  intro fuel
  induction fuel with
  | zero =>
    intro z
    refine ⟨Nat.le_refl 0, ?_, ?_⟩
    · intro j hj; exact absurd hj (Nat.not_lt_zero j)
    · intro h; exact absurd h (Nat.lt_irrefl 0)
  | succ fuel ih =>
    intro z
    by_cases hin : normSq z < 4
    · have hz : escapeCount cx cy z (fuel + 1)
          = escapeCount cx cy (fractalStep cx cy z) fuel + 1 := by
        simp [escapeCount, hin]
      obtain ⟨hle, hins, hesc⟩ := ih (fractalStep cx cy z)
      refine ⟨?_, ?_, ?_⟩
      · rw [hz]; exact Nat.succ_le_succ hle
      · intro j hj
        rw [hz] at hj
        cases j with
        | zero => simpa [orbit] using hin
        | succ j =>
          rw [orbit_succ]
          exact hins j (Nat.lt_of_succ_lt_succ hj)
      · intro hlt
        rw [hz] at hlt ⊢
        rw [orbit_succ]
        exact hesc (Nat.lt_of_succ_lt_succ hlt)
    · have hz : escapeCount cx cy z (fuel + 1) = 0 := by
        simp [escapeCount, hin]
      refine ⟨?_, ?_, ?_⟩
      · rw [hz]; exact Nat.zero_le _
      · intro j hj; rw [hz] at hj; exact absurd hj (Nat.not_lt_zero j)
      · intro _; rw [hz]; simpa [orbit] using le_of_not_lt hin

/-- The frequency-bin index read on harmonic `i` by
`FractalVisualizer.fourierPoint` (fractal-visualizer.js line 157):
`Math.floor(i * this.frequencyData.length / harmonics)`; natural-number
division is exactly the floor of the rational quotient here. -/
def fourierBinIndex (len harmonics i : ℕ) : ℕ := i * len / harmonics

/-- The accumulation loop of `FractalVisualizer.fourierPoint`
(fractal-visualizer.js lines 156–163): `fourierSum v bins len cosF sinF
t harmonics n` is the pair `(x, y)` after the harmonics `i = 1 .. n`
have been added.  `bins j` stands for the value of the JavaScript read
`this.frequencyData[j]` (for `j ≥ len` that read yields `undefined`;
see the bin-index analysis below), `len` for
`this.frequencyData.length`, and `cosF` / `sinF` for `Math.cos` /
`Math.sin`, which the arithmetic never inspects. -/
def fourierSum (v : FractalVisualizer) (bins : ℕ → ℚ) (len : ℕ)
    (cosF sinF : ℚ → ℚ) (t : ℚ) (harmonics : ℕ) : ℕ → ℚ × ℚ
  | 0 => (0, 0)
  | n + 1 =>
    let p := fourierSum v bins len cosF sinF t harmonics n
    let freq := bins (fourierBinIndex len harmonics (n + 1)) / 255
    let amplitude := v.fourierRadius * freq * (1 / ((n + 1 : ℕ) : ℚ))
    let angle := ((n + 1 : ℕ) : ℚ) * t + v.time * v.fourierSpeed * ((n + 1 : ℕ) : ℚ)
    (p.1 + amplitude * cosF angle, p.2 + amplitude * sinF angle)

/-- Embedding of `FractalVisualizer.fourierPoint` (fractal-visualizer.js lines
152–166): accumulate the harmonics `1 .. harmonics` and translate by the
canvas centre. -/
def FractalVisualizer.fourierPoint (v : FractalVisualizer) (bins : ℕ → ℚ)
    (len : ℕ) (cosF sinF : ℚ → ℚ) (t : ℚ) (harmonics : ℕ) : ℚ × ℚ :=
  let p := fourierSum v bins len cosF sinF t harmonics harmonics
  (p.1 + v.centerX, p.2 + v.centerY)

/-- Every entry of `rest` is bounded by the maximum value computed by
the dominant-frequency loop, and the running maximum never decreases. -/
lemma domLoop_fst_bounds :
    ∀ (rest : List ℕ) (i maxValue maxIndex : ℕ),
      maxValue ≤ (domLoop rest i maxValue maxIndex).1 ∧
      ∀ k, rest.getD k 0 ≤ (domLoop rest i maxValue maxIndex).1 := by
  intro rest
  induction rest with
  | nil =>
    intro i maxValue maxIndex
    refine ⟨Nat.le_refl _, ?_⟩
    intro k; simp [domLoop, List.getD]
  | cons b rest ih =>
    intro i maxValue maxIndex
    by_cases hb : maxValue < b
    · have hd : domLoop (b :: rest) i maxValue maxIndex
          = domLoop rest (i + 1) b i := by simp [domLoop, hb]
      obtain ⟨hmono, hall⟩ := ih (i + 1) b i
      rw [hd]
      refine ⟨Nat.le_trans (Nat.le_of_lt hb) hmono, ?_⟩
      intro k
      cases k with
      | zero => simpa using hmono
      | succ k => simpa using hall k
    · have hd : domLoop (b :: rest) i maxValue maxIndex
          = domLoop rest (i + 1) maxValue maxIndex := by simp [domLoop, hb]
      obtain ⟨hmono, hall⟩ := ih (i + 1) maxValue maxIndex
      rw [hd]
      refine ⟨hmono, ?_⟩
      intro k
      cases k with
      | zero => simpa using Nat.le_trans (Nat.le_of_not_lt hb) hmono
      | succ k => simpa using hall k

/-- Structure of the dominant-frequency loop result: either the running
maximum is returned unchanged, or the returned index points (relative to
`i`) at an entry of `rest` equal to the returned maximum, strictly above
the incoming maximum and strictly above every earlier entry of `rest`. -/
lemma domLoop_spec :
    ∀ (rest : List ℕ) (i maxValue maxIndex : ℕ),
      domLoop rest i maxValue maxIndex = (maxValue, maxIndex) ∨
      ∃ k, k < rest.length ∧
        (domLoop rest i maxValue maxIndex).2 = i + k ∧
        rest.getD k 0 = (domLoop rest i maxValue maxIndex).1 ∧
        maxValue < (domLoop rest i maxValue maxIndex).1 ∧
        ∀ j < k, rest.getD j 0 < (domLoop rest i maxValue maxIndex).1 := by
  intro rest
  induction rest with
  | nil => intro i maxValue maxIndex; exact Or.inl rfl
  | cons b rest ih =>
    intro i maxValue maxIndex
    by_cases hb : maxValue < b
    · have hd : domLoop (b :: rest) i maxValue maxIndex
          = domLoop rest (i + 1) b i := by simp [domLoop, hb]
      rcases ih (i + 1) b i with heq | ⟨k, hk, hidx, hval, hlt, hbefore⟩
      · refine Or.inr ⟨0, ?_, ?_, ?_, ?_, ?_⟩
        · exact Nat.succ_pos _
        · rw [hd, heq]; rfl
        · rw [hd, heq]; rfl
        · rw [hd, heq]; exact hb
        · intro j hj; exact absurd hj (Nat.not_lt_zero j)
      · refine Or.inr ⟨k + 1, ?_, ?_, ?_, ?_, ?_⟩
        · simpa using Nat.succ_lt_succ hk
        · rw [hd, hidx]; omega
        · rw [hd]; simpa using hval
        · rw [hd]; exact Nat.lt_trans hb hlt
        · intro j hj
          cases j with
          | zero => rw [hd]; simpa using hlt
          | succ j =>
            rw [hd]; simpa using hbefore j (Nat.lt_of_succ_lt_succ hj)
    · have hd : domLoop (b :: rest) i maxValue maxIndex
          = domLoop rest (i + 1) maxValue maxIndex := by simp [domLoop, hb]
      rcases ih (i + 1) maxValue maxIndex with heq | ⟨k, hk, hidx, hval, hlt, hbefore⟩
      · rw [hd, heq]; exact Or.inl rfl
      · refine Or.inr ⟨k + 1, ?_, ?_, ?_, ?_, ?_⟩
        · simpa using Nat.succ_lt_succ hk
        · rw [hd, hidx]; omega
        · rw [hd]; simpa using hval
        · rw [hd]; exact hlt
        · intro j hj
          cases j with
          | zero =>
            rw [hd]; simpa using Nat.lt_of_le_of_lt (Nat.le_of_not_lt hb) hlt
          | succ j =>
            rw [hd]; simpa using hbefore j (Nat.lt_of_succ_lt_succ hj)

/-- State of `AudioVisualizerApp` relevant to visualizer switching
(the application controller of the three-visualizer build, the file
documented as `app.js` as the controller in the README project structure):
`registered` is the list of keys of `this.visualizers` in insertion
order, `current` the key of `this.currentVisualizer` (the three
visualizer objects are distinct, so a key identifies one), plus
`audioInitialized` and the status line last shown. -/
structure AppState where
  registered : List String
  current : String
  audioInitialized : Bool
  status : String
deriving DecidableEq, Repr

/-- Embedding of `AudioVisualizerApp.initializeVisualizers` (controller lines
116–130): create the rose, sphere and fractal visualizers under those
keys and select the rose one. -/
def initializeVisualizers (s : AppState) : AppState :=
  { s with
    registered := ["rose", "sphere", "fractal"]
    current := "rose"
    status := "Visualizers loaded - select audio source and start" }

/-- Embedding of `AudioVisualizerApp.switchVisualizer` (controller lines 286–319):
refuse before audio is initialized; report `Visualizer not found` and
change nothing for an unregistered key; return unchanged when the keyed
visualizer is already current; otherwise stop the current visualizer,
make the keyed one current and start it. -/
def switchVisualizer (s : AppState) (visualizerKey : String) : AppState :=
  if s.audioInitialized = false then
    { s with status := "Please start audio first" }
  else if visualizerKey ∉ s.registered then
    { s with status := "Visualizer not found" }
  else if s.current = visualizerKey then s
  else
    { s with
      current := visualizerKey
      status := "Switched to " ++ visualizerKey }

/-- Result state of a successful `BaseVisualizer.initAudio` call:
whether the microphone stream is in use, the base frequencies of the
demo oscillators created by `createDemoAudio` (empty when the
microphone is used), whether `dataArray` / `frequencyData` were
allocated, and the value the promise resolves to. -/
structure AudioSetup where
  usingMicrophone : Bool
  demoOscFreqs : List ℕ
  arraysAllocated : Bool
  returned : Bool
deriving DecidableEq, Repr

/-- The oscillator base frequencies created by
`BaseVisualizer.createDemoAudio` (base-visualizer.js line 75):
`const frequencies = [220, 330, 440, 660]`. -/
def demoFrequencies : List ℕ := [220, 330, 440, 660]

/-- Embedding of `BaseVisualizer.initAudio` (base-visualizer.js lines 30–62),
abstracted over the two outcomes the control flow branches on:
`ctxOk` is whether creating the audio context and analyser succeeds,
`micOk` whether `getUserMedia` resolves.  A `getUserMedia` rejection is
caught by the inner `try`: `createDemoAudio` runs, `usingMicrophone`
becomes false, the data arrays are allocated and the function still
returns `true`.  Only a context/analyser failure reaches the outer
`catch`, which re-throws. -/
def initAudio (ctxOk micOk : Bool) : Except String AudioSetup :=
  if ctxOk = false then
    Except.error "Audio initialization failed"
  else if micOk then
    Except.ok ⟨true, [], true, true⟩
  else
    Except.ok ⟨false, demoFrequencies, true, true⟩

/-- The observable steps of one call to `BaseVisualizer.animate`
(base-visualizer.js lines 227–235). -/
inductive FrameEvent
  | updateAudioData
  | updateFPS
  | render
  | scheduleNext
deriving DecidableEq, Repr

/-- Trace of one call to `BaseVisualizer.animate` (base-visualizer.js
lines 227–235): when `this.isActive` is false the function returns at
once; otherwise it runs `updateAudioData()`, `updateFPS()`, `render()`
and finally registers the next frame with `requestAnimationFrame`. -/
def animateTrace (isActive : Bool) : List FrameEvent :=
  if isActive = false then []
  else [.updateAudioData, .updateFPS, .render, .scheduleNext]

/-- Bounds are preserved by the sensitivity-update fold: starting from
any value in `[10, 200]`, every later value stays in `[10, 200]`. -/
lemma sensitivity_fold_bounds (updates : List ℚ) :
    ∀ a : ℚ, 10 ≤ a → a ≤ 200 →
      10 ≤ updates.foldl (fun _ value => setSensitivity value) a ∧
        updates.foldl (fun _ value => setSensitivity value) a ≤ 200 := by
  induction updates with
  | nil => intro a h1 h2; exact ⟨h1, h2⟩
  | cons u rest ih =>
    intro a _ _
    have h1 : (10 : ℚ) ≤ setSensitivity u := le_max_left _ _
    have h2 : setSensitivity u ≤ 200 :=
      max_le (by norm_num) (min_le_left _ _)
    simpa [List.foldl] using ih (setSensitivity u) h1 h2

/-- C9: `cycleModes` maps each mode to the next one in the cyclic order
mandelbrot → julia → fourier → hybrid → mandelbrot, so four consecutive
calls restore any starting mode, and the interval-timer tick invokes
`cycleModes` only while the visualizer is active (otherwise the mode is
unchanged). -/
theorem cycleModes_cyclic_and_timer_gated :
    cycleModes .mandelbrot = .julia ∧
    cycleModes .julia = .fourier ∧
    cycleModes .fourier = .hybrid ∧
    cycleModes .hybrid = .mandelbrot ∧
    (∀ m : VisMode, cycleModes (cycleModes (cycleModes (cycleModes m))) = m) ∧
    (∀ m : VisMode, modeTimerTick true m = cycleModes m) ∧
    (∀ m : VisMode, modeTimerTick false m = m) := by
  decide

/-- C8: when the visualizer is active, one `animate` call acquires the
spectrum snapshot (`updateAudioData`), then draws (`render`), then
schedules the next frame, in that order; when it is inactive, `animate`
reads no audio data, draws nothing and schedules no next frame. -/
theorem animate_order_and_inactive_noop :
    animateTrace true
        = [.updateAudioData, .updateFPS, .render, .scheduleNext] ∧
    (animateTrace true).indexOf FrameEvent.updateAudioData
        < (animateTrace true).indexOf FrameEvent.render ∧
    (animateTrace true).indexOf FrameEvent.render
        < (animateTrace true).indexOf FrameEvent.scheduleNext ∧
    FrameEvent.updateAudioData ∈ animateTrace true ∧
    FrameEvent.render ∈ animateTrace true ∧
    FrameEvent.scheduleNext ∈ animateTrace true ∧
    animateTrace false = [] ∧
    FrameEvent.updateAudioData ∉ animateTrace false ∧
    FrameEvent.render ∉ animateTrace false ∧
    FrameEvent.scheduleNext ∉ animateTrace false := by
  decide

/-- C7: a `getUserMedia` rejection does not propagate out of
`initAudio`: the demo source with oscillators at 220, 330, 440 and
660 Hz is created, `usingMicrophone` is set to false, the data arrays
are allocated and the call still resolves to `true`; `initAudio` throws
exactly when creating the audio context or analyser fails. -/
theorem initAudio_mic_failure_fallback :
    initAudio true false
        = Except.ok ⟨false, [220, 330, 440, 660], true, true⟩ ∧
    (∀ micOk : Bool, ∃ r : AudioSetup,
        initAudio true micOk = Except.ok r ∧
        r.arraysAllocated = true ∧ r.returned = true) ∧
    (∀ micOk : Bool, ∃ e : String, initAudio false micOk = Except.error e) := by
  refine ⟨rfl, ?_, ?_⟩
  · intro micOk
    cases micOk
    · exact ⟨⟨false, demoFrequencies, true, true⟩, rfl, rfl, rfl⟩
    · exact ⟨⟨true, [], true, true⟩, rfl, rfl, rfl⟩
  · intro micOk
    exact ⟨"Audio initialization failed", rfl⟩

/-- C10: the sensitivity field starts at 50, each `setSensitivity`
call clamps its argument into `[10, 200]` (the stored value is
`max 10 (min 200 v)`, which equals the claimed `min 200 (max 10 v)`),
and after any sequence of updates the field lies in `[10, 200]`. -/
theorem sensitivity_stays_in_range :
    sensitivityAfter [] = 50 ∧
    (∀ value : ℚ, setSensitivity value = min 200 (max 10 value)) ∧
    (∀ updates : List ℚ,
        10 ≤ sensitivityAfter updates ∧ sensitivityAfter updates ≤ 200) := by
  refine ⟨rfl, ?_, ?_⟩
  · intro value
    unfold setSensitivity
    rw [max_min_distrib_left]
    norm_num
  · intro updates
    exact sensitivity_fold_bounds updates 50 (by norm_num) (by norm_num)

/-- C3: the claimed in-bounds property of the bin indices read by
`fourierPoint` fails at the last harmonic: for every positive number of
harmonics and every snapshot length the index read at `i = harmonics`
is the length itself, one past the last valid index; in particular with
the default 20 harmonics and a 1024-bin snapshot the loop reads bin
1024 of an array whose valid indices end at 1023. -/
theorem fourierBinIndex_out_of_bounds :
    (∀ harmonics len : ℕ,
        fourierBinIndex len (harmonics + 1) (harmonics + 1) = len) ∧
    fourierBinIndex 1024 20 20 = 1024 ∧
    ¬ fourierBinIndex 1024 20 20 < 1024 := by
  refine ⟨?_, by norm_num [fourierBinIndex], by norm_num [fourierBinIndex]⟩
  intro harmonics len
  unfold fourierBinIndex
  exact Nat.mul_div_cancel_left len (Nat.succ_pos harmonics)

/-- C6: `initializeVisualizers` registers exactly the three keys
`rose`, `sphere`, `fractal` (fixing `rose` as current), and once audio
is initialized `switchVisualizer` makes the keyed visualizer current
for exactly those keys, while any other key leaves the current
visualizer (and the rest of the switching state) unchanged and reports
`Visualizer not found`. -/
theorem app_three_visualizers_switch :
    (∀ s : AppState,
        (initializeVisualizers s).registered = ["rose", "sphere", "fractal"] ∧
        (initializeVisualizers s).current = "rose") ∧
    (∀ (s : AppState) (key : String),
        s.audioInitialized = true →
        s.registered = ["rose", "sphere", "fractal"] →
        ((key ∈ s.registered → (switchVisualizer s key).current = key) ∧
         (key ∉ s.registered →
            (switchVisualizer s key).current = s.current ∧
            (switchVisualizer s key).registered = s.registered ∧
            (switchVisualizer s key).audioInitialized = s.audioInitialized ∧
            (switchVisualizer s key).status = "Visualizer not found"))) := by
  refine ⟨fun s => ⟨rfl, rfl⟩, ?_⟩
  intro s key hinit _
  constructor
  · intro hmem
    by_cases hcur : s.current = key
    · simp [switchVisualizer, hinit, hmem, hcur]
    · simp [switchVisualizer, hinit, hmem, hcur]
  · intro hnot
    simp [switchVisualizer, hinit, hnot]

/-- Witness for C6 at a concrete controller state: switching to the
registered key `sphere` selects it, switching to the unregistered key
`waveform` leaves `rose` current and reports `Visualizer not found`. -/
theorem app_three_visualizers_switch_witness :
    (switchVisualizer ⟨["rose", "sphere", "fractal"], "rose", true, "ok"⟩
        "sphere").current = "sphere" ∧
    (switchVisualizer ⟨["rose", "sphere", "fractal"], "rose", true, "ok"⟩
        "waveform").current = "rose" ∧
    (switchVisualizer ⟨["rose", "sphere", "fractal"], "rose", true, "ok"⟩
        "waveform").status = "Visualizer not found" := by
  refine ⟨?_, ?_, ?_⟩
  · exact (app_three_visualizers_switch.2
      ⟨["rose", "sphere", "fractal"], "rose", true, "ok"⟩ "sphere"
      rfl rfl).1 (by decide)
  · exact ((app_three_visualizers_switch.2
      ⟨["rose", "sphere", "fractal"], "rose", true, "ok"⟩ "waveform"
      rfl rfl).2 (by decide)).1
  · exact ((app_three_visualizers_switch.2
      ⟨["rose", "sphere", "fractal"], "rose", true, "ok"⟩ "waveform"
      rfl rfl).2 (by decide)).2.2.2

/-- C1: for every visualizer state and pixel, `mandelbrot` and `julia`
return exactly the escape time of the textbook iteration
`(zx, zy) ← (zx² - zy² + c_re, 2·zx·zy + c_im)` started at the mapped
point, capped at `maxIterations` — in particular the result is between
0 and `maxIterations` and the loop terminates. -/
theorem mandelbrot_julia_escape_time (v : FractalVisualizer) (x y sinT cosT : ℚ) :
    isEscapeTime (v.mandelbrotSeed x y).1 (v.mandelbrotSeed x y).2
      (v.mandelbrotSeed x y) v.maxIterations (v.mandelbrot x y) ∧
    isEscapeTime (v.juliaC sinT cosT).1 (v.juliaC sinT cosT).2
      (v.juliaSeed x y) v.maxIterations (v.julia x y sinT cosT) :=
  ⟨escapeCount_isEscapeTime _ _ _ _, escapeCount_isEscapeTime _ _ _ _⟩

/-- Sample fractal-visualizer state used to instantiate the per-pixel
theorems: an 800×600 canvas centred at (400, 300) with a two-bin
snapshot, the constructor defaults for the Julia parameter, and a small
iteration cap. -/
def sampleFractal : FractalVisualizer :=
  { frequencyData := some [128, 64]
    sensitivity := 50
    centerX := 400
    centerY := 300
    canvasWidth := 800
    canvasHeight := 600
    maxIterations := 3
    zoom := 1
    panX := 0
    panY := 0
    fourierRadius := 100
    fourierSpeed := 1 / 50
    time := 0
    complexParamRe := -7 / 10
    complexParamIm := 27015 / 100000 }

/-- Witness for C1 at the sample state and the pixel (0, 0). -/
theorem mandelbrot_julia_escape_time_witness :
    isEscapeTime (sampleFractal.mandelbrotSeed 0 0).1
      (sampleFractal.mandelbrotSeed 0 0).2 (sampleFractal.mandelbrotSeed 0 0)
      sampleFractal.maxIterations (sampleFractal.mandelbrot 0 0) ∧
    isEscapeTime (sampleFractal.juliaC 0 1).1 (sampleFractal.juliaC 0 1).2
      (sampleFractal.juliaSeed 0 0) sampleFractal.maxIterations
      (sampleFractal.julia 0 0 0 1) :=
  mandelbrot_julia_escape_time sampleFractal 0 0 0 1

/-- The accumulation loop of `fourierPoint` computes the partial
Fourier sums: after harmonics `1 .. n` the accumulator holds the pair
of sums of `A_i · cos θ_i` and `A_i · sin θ_i`. -/
lemma fourierSum_eq_sum (v : FractalVisualizer) (bins : ℕ → ℚ) (len : ℕ)
    (cosF sinF : ℚ → ℚ) (t : ℚ) (harmonics : ℕ) :
    ∀ n : ℕ,
      fourierSum v bins len cosF sinF t harmonics n
        = (∑ i in Finset.Icc 1 n,
             v.fourierRadius * (bins (i * len / harmonics) / 255) * (1 / (i : ℚ))
               * cosF ((i : ℚ) * t + v.time * v.fourierSpeed * (i : ℚ)),
           ∑ i in Finset.Icc 1 n,
             v.fourierRadius * (bins (i * len / harmonics) / 255) * (1 / (i : ℚ))
               * sinF ((i : ℚ) * t + v.time * v.fourierSpeed * (i : ℚ))) := by
  intro n
  induction n with
  | zero => simp [fourierSum]
  | succ n ih =>
    rw [Finset.sum_Icc_succ_top (Nat.succ_le_succ (Nat.zero_le n)),
        Finset.sum_Icc_succ_top (Nat.succ_le_succ (Nat.zero_le n))]
    show (let p := fourierSum v bins len cosF sinF t harmonics n
          let freq := bins (fourierBinIndex len harmonics (n + 1)) / 255
          let amplitude := v.fourierRadius * freq * (1 / ((n + 1 : ℕ) : ℚ))
          let angle := ((n + 1 : ℕ) : ℚ) * t
              + v.time * v.fourierSpeed * ((n + 1 : ℕ) : ℚ)
          (p.1 + amplitude * cosF angle, p.2 + amplitude * sinF angle)) = _
    rw [ih]
    rfl

/-- C2: `fourierPoint t harmonics` is the canvas centre translated by
the Fourier-series sum over `i = 1 .. harmonics` of
`A_i · (cos θ_i, sin θ_i)` with
`A_i = fourierRadius · (frequencyData[⌊i·len/harmonics⌋] / 255) · (1/i)`
and `θ_i = i·t + time · fourierSpeed · i` (the read of bin
`⌊i·len/harmonics⌋` being modelled by `bins`). -/
theorem fourierPoint_is_fourier_series (v : FractalVisualizer)
    (bins : ℕ → ℚ) (len : ℕ) (cosF sinF : ℚ → ℚ) (t : ℚ) (harmonics : ℕ) :
    v.fourierPoint bins len cosF sinF t harmonics
      = (v.centerX + ∑ i in Finset.Icc 1 harmonics,
           v.fourierRadius * (bins (i * len / harmonics) / 255) * (1 / (i : ℚ))
             * cosF ((i : ℚ) * t + v.time * v.fourierSpeed * (i : ℚ)),
         v.centerY + ∑ i in Finset.Icc 1 harmonics,
           v.fourierRadius * (bins (i * len / harmonics) / 255) * (1 / (i : ℚ))
             * sinF ((i : ℚ) * t + v.time * v.fourierSpeed * (i : ℚ))) := by
  show (let p := fourierSum v bins len cosF sinF t harmonics harmonics
        (p.1 + v.centerX, p.2 + v.centerY)) = _
  rw [fourierSum_eq_sum]
  exact Prod.ext (add_comm _ _) (add_comm _ _)

/-- Witness for C2 at the sample state: two harmonics over a four-bin
snapshot read through a constant bin function, with placeholder cosine
and sine values. -/
theorem fourierPoint_is_fourier_series_witness :
    sampleFractal.fourierPoint (fun _ => 128) 4 (fun _ => 1) (fun _ => 0) 0 2
      = (sampleFractal.centerX + ∑ i in Finset.Icc (1 : ℕ) 2,
           sampleFractal.fourierRadius * ((fun _ => (128 : ℚ)) (i * 4 / 2) / 255)
             * (1 / (i : ℚ))
             * (fun _ => (1 : ℚ)) ((i : ℚ) * 0
                 + sampleFractal.time * sampleFractal.fourierSpeed * (i : ℚ)),
         sampleFractal.centerY + ∑ i in Finset.Icc (1 : ℕ) 2,
           sampleFractal.fourierRadius * ((fun _ => (128 : ℚ)) (i * 4 / 2) / 255)
             * (1 / (i : ℚ))
             * (fun _ => (0 : ℚ)) ((i : ℚ) * 0
                 + sampleFractal.time * sampleFractal.fourierSpeed * (i : ℚ))) :=
  fourierPoint_is_fourier_series sampleFractal (fun _ => 128) 4
    (fun _ => 1) (fun _ => 0) 0 2

/-- C4: with no snapshot `getAverageFrequency` returns 0; for a
non-empty snapshot of byte-valued bins it returns the volume feature
`(sum of bin magnitudes / number of bins) / 128`, which lies in
`[0, 255/128]`. -/
theorem getAverageFrequency_volume_bounds :
    (∀ sens : ℚ, BaseVisualizer.getAverageFrequency ⟨none, sens⟩ = 0) ∧
    (∀ (l : List ℕ) (sens : ℚ), (∀ b ∈ l, b ≤ 255) → l ≠ [] →
        BaseVisualizer.getAverageFrequency ⟨some l, sens⟩
            = ((l.sum : ℚ) / (l.length : ℚ)) / 128 ∧
        0 ≤ BaseVisualizer.getAverageFrequency ⟨some l, sens⟩ ∧
        BaseVisualizer.getAverageFrequency ⟨some l, sens⟩ ≤ 255 / 128) := by
  refine ⟨fun _ => rfl, ?_⟩
  intro l sens hb hne
  have hL : 0 < (l.length : ℚ) := by
    exact_mod_cast List.length_pos.mpr hne
  have hsum : (l.sum : ℚ) ≤ 255 * (l.length : ℚ) := by
    have h1 : l.sum ≤ l.length * 255 := by
      calc l.sum ≤ l.length • 255 := List.sum_le_card_nsmul l 255 hb
        _ = l.length * 255 := by rw [smul_eq_mul]
    calc (l.sum : ℚ) ≤ ((l.length * 255 : ℕ) : ℚ) := by exact_mod_cast h1
      _ = 255 * (l.length : ℚ) := by push_cast; ring
  refine ⟨rfl, ?_, ?_⟩
  · show (0 : ℚ) ≤ ((l.sum : ℚ) / (l.length : ℚ)) / 128
    positivity
  · show ((l.sum : ℚ) / (l.length : ℚ)) / 128 ≤ 255 / 128
    rw [div_div, div_le_div_iff₀ (by positivity) (by norm_num)]
    nlinarith [hsum, hL]

/-- Witness for C4 at the three-bin snapshot `[255, 0, 1]`. -/
theorem getAverageFrequency_volume_bounds_witness :
    BaseVisualizer.getAverageFrequency ⟨some [255, 0, 1], 50⟩
        = ((([255, 0, 1] : List ℕ).sum : ℚ)
            / (([255, 0, 1] : List ℕ).length : ℚ)) / 128 ∧
    0 ≤ BaseVisualizer.getAverageFrequency ⟨some [255, 0, 1], 50⟩ ∧
    BaseVisualizer.getAverageFrequency ⟨some [255, 0, 1], 50⟩ ≤ 255 / 128 :=
  getAverageFrequency_volume_bounds.2 [255, 0, 1] 50 (by decide) (by decide)

/-- C5: with no snapshot `getDominantFrequency` returns 0; for a
non-empty snapshot of `N` bins it returns `i⋆ / N` where `i⋆` is the
smallest index of a bin of maximal magnitude (every bin is at most bin
`i⋆`, every bin before `i⋆` is strictly smaller — which forces
`i⋆ = 0` when all bins are 0), and the result lies in `[0, 1)`. -/
theorem getDominantFrequency_first_argmax :
    (∀ sens : ℚ, BaseVisualizer.getDominantFrequency ⟨none, sens⟩ = 0) ∧
    (∀ (l : List ℕ) (sens : ℚ), l ≠ [] →
      ∃ istar : ℕ,
        BaseVisualizer.getDominantFrequency ⟨some l, sens⟩
            = (istar : ℚ) / (l.length : ℚ) ∧
        istar < l.length ∧
        (∀ j < l.length, l.getD j 0 ≤ l.getD istar 0) ∧
        (∀ j < istar, l.getD j 0 < l.getD istar 0) ∧
        0 ≤ BaseVisualizer.getDominantFrequency ⟨some l, sens⟩ ∧
        BaseVisualizer.getDominantFrequency ⟨some l, sens⟩ < 1) := by
  refine ⟨fun _ => rfl, ?_⟩
  intro l sens hne
  have hlen : 0 < l.length := List.length_pos.mpr hne
  have hL : 0 < (l.length : ℚ) := by exact_mod_cast hlen
  obtain ⟨_, hall⟩ := domLoop_fst_bounds l 0 0 0
  have key : (domLoop l 0 0 0).2 < l.length ∧
      (∀ j < l.length, l.getD j 0 ≤ l.getD (domLoop l 0 0 0).2 0) ∧
      (∀ j < (domLoop l 0 0 0).2, l.getD j 0 < l.getD (domLoop l 0 0 0).2 0) := by
    rcases domLoop_spec l 0 0 0 with heq | ⟨k, hk, hidx, hval, _, hbefore⟩
    · refine ⟨?_, ?_, ?_⟩
      · rw [heq]; exact hlen
      · intro j _
        have h1 : l.getD j 0 ≤ (domLoop l 0 0 0).1 := hall j
        rw [heq] at h1
        have h2 : l.getD j 0 = 0 := Nat.le_zero.mp h1
        rw [h2]
        exact Nat.zero_le _
      · intro j hj
        rw [heq] at hj
        exact absurd hj (Nat.not_lt_zero j)
    · have h2 : l.getD ((domLoop l 0 0 0).2) 0 = (domLoop l 0 0 0).1 := by
        rw [hidx]; simpa using hval
      refine ⟨?_, ?_, ?_⟩
      · rw [hidx]; simpa using hk
      · intro j _
        rw [h2]; exact hall j
      · intro j hj
        rw [hidx] at hj
        rw [h2]
        exact hbefore j (by simpa using hj)
  obtain ⟨h1, h2, h3⟩ := key
  refine ⟨(domLoop l 0 0 0).2, rfl, h1, h2, h3, ?_, ?_⟩
  · show (0 : ℚ) ≤ ((domLoop l 0 0 0).2 : ℚ) / (l.length : ℚ)
    positivity
  · show ((domLoop l 0 0 0).2 : ℚ) / (l.length : ℚ) < 1
    rw [div_lt_one hL]
    exact_mod_cast h1

/-- Witness for C5 at the snapshot `[0, 7, 7, 2]`, whose first maximal
bin is index 1. -/
theorem getDominantFrequency_first_argmax_witness :
    ∃ istar : ℕ,
      BaseVisualizer.getDominantFrequency ⟨some [0, 7, 7, 2], 50⟩
          = (istar : ℚ) / (([0, 7, 7, 2] : List ℕ).length : ℚ) ∧
      istar < ([0, 7, 7, 2] : List ℕ).length ∧
      (∀ j < ([0, 7, 7, 2] : List ℕ).length,
          ([0, 7, 7, 2] : List ℕ).getD j 0
            ≤ ([0, 7, 7, 2] : List ℕ).getD istar 0) ∧
      (∀ j < istar,
          ([0, 7, 7, 2] : List ℕ).getD j 0
            < ([0, 7, 7, 2] : List ℕ).getD istar 0) ∧
      0 ≤ BaseVisualizer.getDominantFrequency ⟨some [0, 7, 7, 2], 50⟩ ∧
      BaseVisualizer.getDominantFrequency ⟨some [0, 7, 7, 2], 50⟩ < 1 :=
  getDominantFrequency_first_argmax.2 [0, 7, 7, 2] 50 (by decide)
